import Mathlib

/-!
Verification of the MatchForge job-matching engine
(`app/services/job_matcher.py`) against its specification.

The Python code is shallowly embedded: Python floats are modelled as `ℚ`,
Python ints as `ℕ`/`ℤ` (the data model declares the numeric profile/job
fields as optional non-negative integers), absent dictionary keys and
`None` values as `Option.none`.  The two external effects of the module —
the sentence-transformer similarity (`model.encode` + cosine) and the date
parsing / wall clock used by the recency scorer — are abstracted as
explicit function parameters (`sim`, `daysOld`): `sim a b = none` models
the embedding path raising an exception (the `except` branch), and
`daysOld s` models `(datetime.now() - strptime(s)).days`, with `none` for
an unparsable string.  Everything else is translated line by line.
-/

attribute [local semireducible] Rat.add Rat.mul Rat.inv Rat.sub Rat.ofScientific

/-- Python's `str.lower()`.  Lean's `Char.toLower` lowers the ASCII range
only; the engine's matching logic is case-folding-agnostic, so this is the
faithful control-flow model. -/
def strToLower (s : String) : String :=
  String.mk (s.toList.map Char.toLower)

/-- Python `round` on our rational model of floats: round half to even
(banker's rounding), as CPython's built-in `round` does. -/
def pyRound (q : ℚ) : ℤ :=
  let f : ℤ := q.floor
  let r : ℚ := q - (f : ℚ)
  if r < 1/2 then f
  else if 1/2 < r then f + 1
  else if f % 2 = 0 then f else f + 1

/-- Helper for the substring test: does `needle` occur contiguously in the
character list, starting at any position? -/
def containsFrom (needle : List Char) : List Char → Bool
  | [] => needle.isEmpty
  | c :: rest => needle.isPrefixOf (c :: rest) || containsFrom needle rest

/-- Python's `needle in hay` on strings: contiguous substring test
(the empty needle is contained in every string). -/
def strContains (hay needle : String) : Bool :=
  containsFrom needle.toList hay.toList

/-- Python `x or default` applied to an optional non-negative integer:
the default replaces both `None` and the falsy value `0`.  This is the
defaulting idiom the scorers use (`job_min or 0`, `job_max or 30`, ...). -/
def orNat (x : Option ℕ) (d : ℕ) : ℕ :=
  match x with
  | none => d
  | some v => if v = 0 then d else v

/-- The `MatchWeights` dataclass.  Field defaults are the module defaults.
The generated `__init__` only assigns fields; see `mkMatchWeights`. -/
structure MatchWeights where
  skills_semantic : ℚ := 35/100
  experience_level : ℚ := 20/100
  salary_fit : ℚ := 15/100
  location_match : ℚ := 15/100
  title_similarity : ℚ := 10/100
  recency : ℚ := 5/100
  deriving Repr, DecidableEq

/-- The module-level `DEFAULT_WEIGHTS = MatchWeights()`. -/
def DEFAULT_WEIGHTS : MatchWeights := {}

/-- The dataclass-generated constructor `MatchWeights(a, b, c, d, e, f)`:
it assigns the six fields and performs no validation whatsoever. -/
def mkMatchWeights (a b c d e f : ℚ) : MatchWeights :=
  ⟨a, b, c, d, e, f⟩

/-- Sum of the six weight fields. -/
def weightsSum (w : MatchWeights) : ℚ :=
  w.skills_semantic + w.experience_level + w.salary_fit +
    w.location_match + w.title_similarity + w.recency

/-- The candidate profile dictionary, restricted to the keys the matcher
reads.  `none` models an absent key or an explicit `None` value. -/
structure UserProfile where
  skills : List String := []
  years_experience : Option ℕ := none
  salary_min : Option ℕ := none
  salary_max : Option ℕ := none
  preferred_locations : List String := []
  remote_preference : Option String := none
  target_titles : List String := []
  deriving Repr, DecidableEq

/-- The job dictionary, restricted to the keys the matcher reads. -/
structure Job where
  title : String := ""
  description : String := ""
  required_skills : List String := []
  min_experience : Option ℕ := none
  max_experience : Option ℕ := none
  salary_min : Option ℕ := none
  salary_max : Option ℕ := none
  location : Option String := none
  is_remote : Bool := false
  posted_date : Option String := none
  deriving Repr, DecidableEq

/-- `JobMatcher._keyword_match`: fallback keyword matching if the model
fails.  Counts how many skills occur case-insensitively in the job text. -/
def keyword_match (user_skills : List String) (job_text : String) : ℚ :=
  if user_skills.isEmpty || job_text = "" then 1/2
  else
    let job_lower := strToLower job_text
    let n_matches : ℕ :=
      (user_skills.filter (fun skill => strContains job_lower (strToLower skill))).length
    min 1 (3/10 + ((n_matches : ℚ) / (user_skills.length : ℚ)) * (7/10))

/-- `JobMatcher._compute_skills_match`.  `sim a b` abstracts the embedding
of the two texts and their cosine similarity; `none` is the exception
branch, which falls back to keyword matching. -/
def compute_skills_match (sim : String → String → Option ℚ)
    (user_skills : List String) (job_description : String)
    (required_skills : List String) : ℚ :=
  if user_skills.isEmpty then 1/2
  else
    let user_text := " ".intercalate user_skills
    let job_text :=
      if required_skills.isEmpty then job_description
      else job_description ++ " " ++ " ".intercalate required_skills
    if job_text.trim = "" then 1/2
    else
      match sim user_text job_text with
      | some c => max 0 ((c + 1) / 2)
      | none => keyword_match user_skills job_text

/-- `JobMatcher._compute_experience_match`.  Note the Python defaulting
`job_min = job_min or 0`, `job_max = job_max or 30`,
`user_years = user_years or 0` (for natural numbers `user_years or 0` is
the identity). -/
def compute_experience_match (user_years : ℕ)
    (job_min job_max : Option ℕ) : ℚ :=
  if job_min = none ∧ job_max = none then 7/10
  else
    let jmin := orNat job_min 0
    let jmax := orNat job_max 30
    if jmin ≤ user_years ∧ user_years ≤ jmax then 1
    else if user_years < jmin then
      max (2/10) (1 - ((jmin - user_years : ℕ) : ℚ) * (15/100))
    else
      let gap := user_years - jmax
      if gap ≤ 3 then 8/10
      else if gap ≤ 5 then 6/10
      else 5/10

/-- `JobMatcher._compute_salary_match`.  Python `user_range =
user_max - user_min or 1` is modelled in `ℤ` (Python int subtraction);
the branch it is evaluated in guarantees `user_min ≤ user_max`. -/
def compute_salary_match (user_min user_max job_min job_max : Option ℕ) : ℚ :=
  if (user_min = none ∧ user_max = none) ∨ (job_min = none ∧ job_max = none)
  then 7/10
  else
    let umin := orNat user_min 0
    let umax := orNat user_max 500000
    let jmin := orNat job_min 0
    let jmax := orNat job_max 500000
    let overlap_start := max umin jmin
    let overlap_end := min umax jmax
    if overlap_end < overlap_start then
      if jmax < umin then
        max (2/10) (1 - ((umin - jmax : ℕ) : ℚ) / (umin : ℚ))
      else 1/2
    else
      let user_range : ℤ :=
        if (umax : ℤ) - (umin : ℤ) = 0 then 1 else (umax : ℤ) - (umin : ℤ)
      let overlap : ℕ := overlap_end - overlap_start
      min 1 (1/2 + ((overlap : ℚ) / (user_range : ℚ)) * (1/2))

/-- `JobMatcher._compute_location_match`.  `remote_preference or "any"`
replaces both `None` and the empty string by `"any"`; `job_location` is
truthy when it is present and non-empty. -/
def compute_location_match (preferred_locations : List String)
    (remote_preference : Option String) (job_location : Option String)
    (job_remote : Bool) : ℚ :=
  let rp := match remote_preference with
    | none => "any"
    | some s => if s = "" then "any" else s
  if rp = "remote" then (if job_remote then 1 else 3/10)
  else if rp = "onsite" ∧ job_remote then 1/2
  else if ¬preferred_locations.isEmpty ∧ job_location.getD "" ≠ "" then
    let job_loc_lower := strToLower (job_location.getD "")
    if preferred_locations.any (fun pref => strContains job_loc_lower (strToLower pref))
    then 1 else 1/2
  else 7/10

/-- `JobMatcher._compute_title_match`.  The guard returns `0.7` when the
target list is empty or the job title is empty; then the case-insensitive
two-way substring short-circuit; then the embedding path (`sim`), whose
exception branch returns `0.5`. -/
def compute_title_match (sim : String → String → Option ℚ)
    (target_titles : List String) (job_title : String) : ℚ :=
  if target_titles.isEmpty || job_title = "" then 7/10
  else
    let job_lower := strToLower job_title
    if target_titles.any
        (fun t => strContains job_lower (strToLower t) || strContains (strToLower t) job_lower)
    then 1
    else
      match sim (" ".intercalate target_titles) job_title with
      | some c => max 0 ((c + 1) / 2)
      | none => 1/2

/-- `JobMatcher._compute_recency_score`.  `daysOld s` abstracts parsing
`s` with the format list and taking `(datetime.now() - posted).days`;
`none` models an unparsable string (the `for ... else` fallthrough or the
outer `except`).  The empty string is caught by `if not posted_date`. -/
def compute_recency_score (daysOld : String → Option ℤ)
    (posted_date : Option String) : ℚ :=
  match posted_date with
  | none => 1/2
  | some s =>
    if s = "" then 1/2
    else
      match daysOld s with
      | none => 1/2
      | some d =>
        if d ≤ 3 then 1
        else if d ≤ 7 then 9/10
        else if d ≤ 14 then 7/10
        else if d ≤ 30 then 1/2
        else 3/10

/-- The per-component integer breakdown in the `components` mapping. -/
structure Components where
  skills : ℤ
  experience : ℤ
  salary : ℤ
  location : ℤ
  title : ℤ
  recency : ℤ
  deriving Repr, DecidableEq

/-- The dictionary returned by `compute_match_score`. -/
structure MatchScore where
  total_score : ℤ
  components : Components
  weights_used : MatchWeights
  deriving Repr, DecidableEq

/-- `JobMatcher.compute_match_score` with the weights already resolved
(`weights or self.weights`). -/
def compute_match_score (sim : String → String → Option ℚ)
    (daysOld : String → Option ℤ) (user_profile : UserProfile) (job : Job)
    (weights : MatchWeights) : MatchScore :=
  let s_skills := compute_skills_match sim user_profile.skills
    job.description job.required_skills
  let s_experience := compute_experience_match
    (user_profile.years_experience.getD 0) job.min_experience job.max_experience
  let s_salary := compute_salary_match user_profile.salary_min
    user_profile.salary_max job.salary_min job.salary_max
  let s_location := compute_location_match user_profile.preferred_locations
    user_profile.remote_preference job.location job.is_remote
  let s_title := compute_title_match sim user_profile.target_titles job.title
  let s_recency := compute_recency_score daysOld job.posted_date
  let total :=
    s_skills * weights.skills_semantic +
    s_experience * weights.experience_level +
    s_salary * weights.salary_fit +
    s_location * weights.location_match +
    s_title * weights.title_similarity +
    s_recency * weights.recency
  { total_score := pyRound (total * 100)
    components :=
      { skills := pyRound (s_skills * 100)
        experience := pyRound (s_experience * 100)
        salary := pyRound (s_salary * 100)
        location := pyRound (s_location * 100)
        title := pyRound (s_title * 100)
        recency := pyRound (s_recency * 100) }
    weights_used := weights }

/-- `JobMatcher.rank_jobs`: score every job, keep those with
`total_score >= min_score`, and sort by `total_score` descending with a
stable sort (Python `list.sort(key=..., reverse=True)` is stable and, for
ties, `reverse=True` keeps the original order). -/
def rank_jobs (sim : String → String → Option ℚ)
    (daysOld : String → Option ℤ) (weights : MatchWeights)
    (user_profile : UserProfile) (jobs : List Job) (min_score : ℤ) :
    List (Job × MatchScore) :=
  let scored_jobs := jobs.filterMap (fun job =>
    let scores := compute_match_score sim daysOld user_profile job weights
    if min_score ≤ scores.total_score then some (job, scores) else none)
  scored_jobs.mergeSort
    (fun a b => decide (b.2.total_score ≤ a.2.total_score))

/-! ### Helper lemmas -/

lemma ratFloor_le (q : ℚ) : (q.floor : ℚ) ≤ q := Rat.le_floor.mp le_rfl

lemma lt_ratFloor_add_one (q : ℚ) : q < q.floor + 1 := by
  by_contra h
  push_neg at h
  have h2 : ((q.floor + 1 : ℤ) : ℚ) ≤ q := by push_cast; linarith
  have := Rat.le_floor.mpr h2
  omega

lemma le_pyRound {n : ℤ} {q : ℚ} (h : (n : ℚ) ≤ q) : n ≤ pyRound q := by
  have h3 : n ≤ q.floor := Rat.le_floor.mpr h
  simp only [pyRound]
  split_ifs <;> omega

lemma pyRound_le {n : ℤ} {q : ℚ} (h : q ≤ (n : ℚ)) : pyRound q ≤ n := by
  have h1 := ratFloor_le q
  have h4 : q.floor ≤ n := by
    have : (q.floor : ℚ) ≤ (n : ℚ) := le_trans h1 h
    exact_mod_cast this
  have h5 : ∀ him : (q.floor : ℚ) + 1/2 ≤ q, q.floor + 1 ≤ n := by
    intro him
    have h6 : (q.floor : ℚ) + 1/2 ≤ (n : ℚ) := le_trans him h
    have h7 : (q.floor : ℚ) < (n : ℚ) := by linarith
    have : q.floor < n := by exact_mod_cast h7
    omega
  simp only [pyRound]
  split_ifs with a b c
  · exact h4
  · exact h5 (by linarith)
  · exact h4
  · have hb : q - q.floor = 1/2 := by linarith
    exact h5 (by linarith)

/-! ### Claims -/

/-- C6: the spec requires a `MatchWeights` whose six fields sum far from
1.0 (outside the ±0.01 tolerance) to be rejected or flagged at
construction; the dataclass constructor performs no validation at all: it
silently returns the record unchanged.  Evaluated at the failing input
`MatchWeights(1.0, 1.0, 1.0, 1.0, 1.0, 1.0)`, whose fields sum to 6.0. -/
theorem C6_weights_not_validated :
    mkMatchWeights 1 1 1 1 1 1 =
      { skills_semantic := 1, experience_level := 1, salary_fit := 1,
        location_match := 1, title_similarity := 1, recency := 1 } ∧
    weightsSum (mkMatchWeights 1 1 1 1 1 1) = 6 ∧
    ¬ |weightsSum (mkMatchWeights 1 1 1 1 1 1) - 1| ≤ 1/100 := by
  decide

/-- C7 counterexample: with job title `""` and target titles
`["engineer"]`, the empty job title is a (case-insensitive) substring of
the target title, so the claim demands `1.0`; the code's leading guard
(`not job_title`) returns `0.7` instead, whatever the embedding returns. -/
theorem C7_counterexample :
    strContains (strToLower "engineer") (strToLower "") = true ∧
    compute_title_match (fun _ _ => some 0) ["engineer"] "" = 7/10 ∧
    compute_title_match (fun _ _ => some 0) ["engineer"] "" ≠ 1 := by
  decide

/-- C7 (amended): the title scorer returns `0.7` whenever the target-title
list is empty **or the job title is empty**; for a non-empty job title it
returns `1.0`, without invoking the embedding path (`sim` is arbitrary and
unused), whenever some target title is a case-insensitive substring of the
job title or vice versa. -/
theorem C7_title_shortcircuit (sim : String → String → Option ℚ)
    (target_titles : List String) (job_title : String) :
    (target_titles = [] ∨ job_title = "" →
      compute_title_match sim target_titles job_title = 7/10) ∧
    (job_title ≠ "" →
      (∃ t ∈ target_titles,
        strContains (strToLower job_title) (strToLower t) = true ∨
        strContains (strToLower t) (strToLower job_title) = true) →
      compute_title_match sim target_titles job_title = 1) := by
  constructor
  · rintro (h | h)
    · simp [compute_title_match, h]
    · simp [compute_title_match, h]
  · rintro hne ⟨t, ht, hsub⟩
    have hne2 : ¬target_titles.isEmpty := by
      cases target_titles with
      | nil => cases ht
      | cons a l => simp [List.isEmpty]
    have hany : (target_titles.any fun t =>
        strContains (strToLower job_title) (strToLower t) ||
          strContains (strToLower t) (strToLower job_title)) = true := by
      rw [List.any_eq_true]
      exact ⟨t, ht, by rcases hsub with h | h <;> simp [h]⟩
    simp [compute_title_match, hne, hne2, hany]

/-- C7 witness: the spec's scenario — target `"DevOps Engineer"` inside
job title `"Senior DevOps Engineer"` scores `1.0` whatever the embedding
would say. -/
theorem C7_witness :
    compute_title_match (fun _ _ => some 0) ["DevOps Engineer"]
      "Senior DevOps Engineer" = 1 :=
  (C7_title_shortcircuit (fun _ _ => some 0) ["DevOps Engineer"]
      "Senior DevOps Engineer").2 (by decide)
    ⟨"DevOps Engineer", by simp, Or.inl (by decide)⟩

/-- C8: the recency scorer returns `0.5` for an absent posting date, for a
falsy (empty) date string, and for an unparsable one (`daysOld s = none`);
otherwise, with `d` the whole-day age produced by `daysOld` (negative ages
included, so future dates land in the first bucket), it returns the bucket
value `1.0 / 0.9 / 0.7 / 0.5 / 0.3` for `d ≤ 3 / ≤ 7 / ≤ 14 / ≤ 30 /
otherwise`. -/
theorem C8_recency_buckets (daysOld : String → Option ℤ) :
    compute_recency_score daysOld none = 1/2 ∧
    (∀ s, s = "" ∨ daysOld s = none →
      compute_recency_score daysOld (some s) = 1/2) ∧
    (∀ s d, s ≠ "" → daysOld s = some d →
      compute_recency_score daysOld (some s) =
        if d ≤ 3 then 1
        else if d ≤ 7 then 9/10
        else if d ≤ 14 then 7/10
        else if d ≤ 30 then 1/2
        else 3/10) := by
  refine ⟨rfl, ?_, ?_⟩
  · rintro s (h | h) <;> simp [compute_recency_score, h]
  · intro s d hs hd
    simp [compute_recency_score, hs, hd]

/-- C8 witness: a parse giving a whole-day age of 8 lands in the ≤14
bucket and scores 0.7. -/
theorem C8_recency_witness :
    compute_recency_score (fun _ => some 8) (some "2025-01-01") = 7/10 := by
  have h := (C8_recency_buckets (fun _ => some 8)).2.2 "2025-01-01" 8
    (by decide) rfl
  simpa using h

/-- C9 counterexample: the claim says two calls on identical profile, job
and weights yield identical results with no hidden state affecting the
output; but the recency component reads the wall clock
(`datetime.now()`), so the same job posting scored at two different times
(whole-day age 3 versus 10 here) produces different `MatchScore`s
(total 64 versus 63, recency component 100 versus 70). -/
theorem C9_counterexample :
    compute_match_score (fun _ _ => none) (fun _ => some 3) {}
        { posted_date := some "2025-01-01" } DEFAULT_WEIGHTS ≠
      compute_match_score (fun _ _ => none) (fun _ => some 10) {}
        { posted_date := some "2025-01-01" } DEFAULT_WEIGHTS := by
  decide

/-- C9 (amended): `compute_match_score` is deterministic given its inputs
and its ambient environment: with the same embedding model (`sim`), two
calls whose clock readings give the same recency score for the job's
posting date return identical `MatchScore`s; no other hidden state or
randomness affects the output. -/
theorem C9_determinism (sim : String → String → Option ℚ)
    (d1 d2 : String → Option ℤ) (p : UserProfile) (j : Job)
    (w : MatchWeights)
    (h : compute_recency_score d1 j.posted_date =
      compute_recency_score d2 j.posted_date) :
    compute_match_score sim d1 p j w = compute_match_score sim d2 p j w := by
  simp only [compute_match_score, h]

/-- C9 witness: for a job with no posting date the recency score is the
clock-independent 0.5, so two calls at different times agree exactly. -/
theorem C9_determinism_witness :
    compute_match_score (fun _ _ => none) (fun _ => some 2) {} {}
        DEFAULT_WEIGHTS =
      compute_match_score (fun _ _ => none) (fun _ => some 9) {} {}
        DEFAULT_WEIGHTS :=
  C9_determinism _ _ _ _ _ _ (by decide)

/-- C10: for every `remote_preference` that is not one of the four enum
values (`None`, the empty string, and arbitrary other strings included)
the location scorer is total and behaves exactly as it does for `"any"`:
it falls through to the preferred-locations substring check — `1.0` on a
case-insensitive match, `0.5` otherwise — when both the preferred list and
the job location are non-empty, and returns the `0.7` neutral otherwise. -/
theorem C10_location_fallthrough (preferred_locations : List String)
    (remote_preference : Option String) (job_location : Option String)
    (job_remote : Bool)
    (h : ∀ s, remote_preference = some s →
      s ≠ "remote" ∧ s ≠ "onsite" ∧ s ≠ "hybrid" ∧ s ≠ "any") :
    compute_location_match preferred_locations remote_preference
        job_location job_remote =
      compute_location_match preferred_locations (some "any")
        job_location job_remote ∧
    compute_location_match preferred_locations remote_preference
        job_location job_remote =
      (if preferred_locations ≠ [] ∧ job_location.getD "" ≠ "" then
        (if preferred_locations.any (fun pref =>
            strContains (strToLower (job_location.getD ""))
              (strToLower pref)) then 1 else 1/2)
      else (7 : ℚ)/10) := by
  have key : ∀ rp : Option String,
      (∀ s, rp = some s → s ≠ "remote" ∧ s ≠ "onsite") →
      compute_location_match preferred_locations rp job_location job_remote =
        (if preferred_locations ≠ [] ∧ job_location.getD "" ≠ "" then
          (if preferred_locations.any (fun pref =>
              strContains (strToLower (job_location.getD ""))
                (strToLower pref)) then 1 else 1/2)
        else (7 : ℚ)/10) := by
    rintro (_ | s) hrp
    · simp [compute_location_match, List.isEmpty_iff]
    · obtain ⟨h1, h2⟩ := hrp s rfl
      by_cases hse : s = ""
      · subst hse
        simp [compute_location_match, List.isEmpty_iff]
      · simp [compute_location_match, hse, h1, h2, List.isEmpty_iff]
  have h2 := key remote_preference (fun s hs => ⟨(h s hs).1, (h s hs).2.1⟩)
  have h3 := key (some "any") (fun s hs => by cases hs; exact ⟨by decide, by decide⟩)
  exact ⟨h2.trans h3.symm, h2⟩

/-- C10 witness: the unknown preference string `"flexible"` is treated as
`"any"`: the preferred location `"austin"` matches inside
`"Downtown Austin, TX"`, scoring 1.0. -/
theorem C10_witness :
    compute_location_match ["austin"] (some "flexible")
        (some "Downtown Austin, TX") false =
      compute_location_match ["austin"] (some "any")
        (some "Downtown Austin, TX") false ∧
    compute_location_match ["austin"] (some "flexible")
        (some "Downtown Austin, TX") false = 1 := by
  have h := C10_location_fallthrough ["austin"] (some "flexible")
    (some "Downtown Austin, TX") false
    (fun s hs => by cases hs; exact ⟨by decide, by decide, by decide, by decide⟩)
  exact ⟨h.1, by rw [h.2]; decide⟩

/-- C4 counterexample: the defaults are applied by the Python `or` idiom,
which also replaces a **present zero**.  With `candidate_years = 2`,
`job_min = 0`, `job_max = 0` the claim demands the over-qualification step
value `0.8` (gap 2 ≤ 3), but `job_max or 30` turns the present `0` into
`30` and the code returns the perfect-fit `1.0`.  With
`candidate_years = 10`, `job_min = 20`, `job_max = 5` the claim demands
`0.6` (gap 5), but the code tests under-qualification first
(`10 < job_min`) and returns `0.2`. -/
theorem C4_counterexample :
    compute_experience_match 2 (some 0) (some 0) = 1 ∧
    compute_experience_match 2 (some 0) (some 0) ≠ 8/10 ∧
    compute_experience_match 10 (some 20) (some 5) = 2/10 ∧
    compute_experience_match 10 (some 20) (some 5) ≠ 6/10 := by
  decide

/-- C4 (amended): the experience defaults are applied when the value is
absent **or zero** (Python `or`; for `job_min` and `candidate_years` the
default is itself 0, so only `job_max -> 30` is affected: a present
`job_max = 0` behaves exactly like `job_max = 30`); for every present
`job_max > 0` and candidate years strictly greater than `job_max` **and
not below the defaulted `job_min`**, the score is the over-qualification
step function: 0.8 if the gap is ≤ 3, 0.6 if ≤ 5, else 0.5. -/
theorem C4_experience_amended :
    (∀ (uy : ℕ) (jm : Option ℕ),
      compute_experience_match uy jm (some 0) =
        compute_experience_match uy jm (some 30)) ∧
    (∀ (uy : ℕ) (jm : Option ℕ) (jM : ℕ), 0 < jM → jM < uy →
      orNat jm 0 ≤ uy →
      compute_experience_match uy jm (some jM) =
        if uy - jM ≤ 3 then 8/10
        else if uy - jM ≤ 5 then 6/10
        else 5/10) := by
  constructor
  · intro uy jm
    simp [compute_experience_match, orNat]
  · intro uy jm jM hj hlt hmin
    have hne : jM ≠ 0 := Nat.pos_iff_ne_zero.mp hj
    have h1 : ¬ uy ≤ jM := Nat.not_le.mpr hlt
    have h2 : ¬ uy < orNat jm 0 := Nat.not_lt.mpr hmin
    have h3 : orNat (some jM) 30 = jM := by simp [orNat, hne]
    simp [compute_experience_match, h3, h1, h2, hmin]

/-- C4 witness: present `job_max = 6 > 0`, candidate 10 years, defaulted
`job_min = 0 ≤ 10`: gap 4 lands on the 0.6 step. -/
theorem C4_experience_witness :
    compute_experience_match 10 none (some 6) = 6/10 := by
  have h := C4_experience_amended.2 10 none 6 (by decide) (by decide) (by decide)
  simpa using h

/-- C5 counterexample: the salary defaults also use Python `or`, so a
**present zero** bound is replaced as well.  With candidate range
[100000, 150000] and job range [50000, 0], the claim demands the disjoint
case `max(0.2, 1 - (100000-0)/100000) = 0.2`; the code turns the present
`job_max = 0` into 500000, sees full overlap, and returns `1.0`. -/
theorem C5_counterexample :
    compute_salary_match (some 100000) (some 150000)
      (some 50000) (some 0) = 1 ∧
    compute_salary_match (some 100000) (some 150000)
      (some 50000) (some 0) ≠ 2/10 := by
  decide

/-- C5 (amended): the salary scorer returns 0.7 when either side has both
bounds absent; otherwise, with the defaults [0, 500000] applied to each
absent **or zero** bound (Python `or`), it returns
`max(0.2, 1 - (cmin - jmax)/cmin)` when the ranges are disjoint with
`jmax < cmin`, a flat `0.5` when they are disjoint otherwise, and
`min(1, 0.5 + 0.5 * (overlap_end - overlap_start)/max(cmax - cmin, 1))`
when they overlap. -/
theorem C5_salary_amended :
    (∀ jm jM, compute_salary_match none none jm jM = 7/10) ∧
    (∀ um uM, compute_salary_match um uM none none = 7/10) ∧
    (∀ (um uM jm jM : Option ℕ),
      ¬(um = none ∧ uM = none) → ¬(jm = none ∧ jM = none) →
      compute_salary_match um uM jm jM =
        (let cmin : ℚ := orNat um 0
         let cmax : ℚ := orNat uM 500000
         let jmin : ℚ := orNat jm 0
         let jmax : ℚ := orNat jM 500000
         if max cmin jmin > min cmax jmax then
           (if jmax < cmin then max (2/10) (1 - (cmin - jmax) / cmin)
            else 1/2)
         else
           min 1 (1/2 +
             ((min cmax jmax - max cmin jmin) / max (cmax - cmin) 1) *
               (1/2)))) := by
  refine ⟨fun jm jM => by simp [compute_salary_match],
    fun um uM => by simp [compute_salary_match], ?_⟩
  intro um uM jm jM h1 h2
  simp only [compute_salary_match]
  rw [if_neg (by tauto)]
  set a := orNat um 0 with ha
  set b := orNat uM 500000 with hb
  set c := orNat jm 0 with hc
  set d := orNat jM 500000 with hd
  show _ = if max (a:ℚ) (c:ℚ) > min (b:ℚ) (d:ℚ) then _ else _
  by_cases hov : min b d < max a c
  · have hovq : min (b:ℚ) (d:ℚ) < max (a:ℚ) (c:ℚ) := by
      rw [← Nat.cast_min, ← Nat.cast_max]
      exact_mod_cast hov
    rw [if_pos hov, if_pos hovq]
    by_cases hga : d < a
    · have hgaq : (d:ℚ) < (a:ℚ) := by exact_mod_cast hga
      rw [if_pos hga, if_pos hgaq, Nat.cast_sub (le_of_lt hga)]
    · have hgaq : ¬ (d:ℚ) < (a:ℚ) := by exact_mod_cast hga
      rw [if_neg hga, if_neg hgaq]
  · have hovq : ¬ min (b:ℚ) (d:ℚ) < max (a:ℚ) (c:ℚ) := by
      rw [← Nat.cast_min, ← Nat.cast_max]
      exact_mod_cast hov
    rw [if_neg hov, if_neg hovq]
    have hle : max a c ≤ min b d := Nat.le_of_not_lt hov
    have hab : a ≤ b :=
      le_trans (le_trans (le_max_left a c) hle) (min_le_left b d)
    have hur : (((if (b:ℤ) - (a:ℤ) = 0 then 1 else (b:ℤ) - (a:ℤ)) : ℤ) : ℚ) =
        max ((b:ℚ) - (a:ℚ)) 1 := by
      by_cases hz : (b:ℤ) - (a:ℤ) = 0
      · rw [if_pos hz]
        have hzz : (b:ℤ) = (a:ℤ) := by omega
        have hba : b = a := by exact_mod_cast hzz
        rw [hba, sub_self]
        simp
      · rw [if_neg hz]
        have habz : (a:ℤ) ≤ (b:ℤ) := by exact_mod_cast hab
        have h1b : (1:ℤ) ≤ (b:ℤ) - (a:ℤ) := by omega
        have h1q : (1:ℚ) ≤ (b:ℚ) - (a:ℚ) := by exact_mod_cast h1b
        rw [max_eq_left h1q]
        push_cast
        ring
    rw [Nat.cast_sub hle, Nat.cast_min, Nat.cast_max, hur]

/-- C5 witness: candidate [120000, 160000] versus job [110000, 150000]:
overlap 30000 over a 40000-wide candidate range scores
0.5 + 0.75*0.5 = 0.875. -/
theorem C5_salary_witness :
    compute_salary_match (some 120000) (some 160000)
      (some 110000) (some 150000) = 7/8 := by
  have h := C5_salary_amended.2.2 (some 120000) (some 160000)
    (some 110000) (some 150000) (by simp) (by simp)
  rw [h]
  decide

/-- C2: the dictionary returned by `compute_match_score` has
`total_score = round(100 * Σ componentᵢ * weightᵢ)` over the six
component scores, each `components` entry `round(100 * score)`, and
`weights_used` the applied weights (`round` being Python's
round-half-to-even). -/
theorem C2_aggregation_formula (sim : String → String → Option ℚ)
    (daysOld : String → Option ℤ) (p : UserProfile) (j : Job)
    (w : MatchWeights) :
    compute_match_score sim daysOld p j w =
      { total_score := pyRound (100 *
          (compute_skills_match sim p.skills j.description j.required_skills *
              w.skills_semantic +
           compute_experience_match (p.years_experience.getD 0)
              j.min_experience j.max_experience * w.experience_level +
           compute_salary_match p.salary_min p.salary_max
              j.salary_min j.salary_max * w.salary_fit +
           compute_location_match p.preferred_locations p.remote_preference
              j.location j.is_remote * w.location_match +
           compute_title_match sim p.target_titles j.title *
              w.title_similarity +
           compute_recency_score daysOld j.posted_date * w.recency))
        components :=
          { skills := pyRound (100 *
              compute_skills_match sim p.skills j.description j.required_skills)
            experience := pyRound (100 *
              compute_experience_match (p.years_experience.getD 0)
                j.min_experience j.max_experience)
            salary := pyRound (100 *
              compute_salary_match p.salary_min p.salary_max
                j.salary_min j.salary_max)
            location := pyRound (100 *
              compute_location_match p.preferred_locations
                p.remote_preference j.location j.is_remote)
            title := pyRound (100 *
              compute_title_match sim p.target_titles j.title)
            recency := pyRound (100 *
              compute_recency_score daysOld j.posted_date) }
        weights_used := w } := by
  simp only [compute_match_score, MatchScore.mk.injEq, Components.mk.injEq]
  refine ⟨by rw [mul_comm], ⟨?_, ?_, ?_, ?_, ?_, ?_⟩, trivial⟩ <;> rw [mul_comm]

lemma keyword_match_bounds (us : List String) (jt : String) :
    0 ≤ keyword_match us jt ∧ keyword_match us jt ≤ 1 := by
  unfold keyword_match
  split_ifs with h
  · norm_num
  · refine ⟨le_min (by norm_num) ?_, min_le_left _ _⟩
    have hd : (0:ℚ) ≤
        ((us.filter (fun skill =>
          strContains (strToLower jt) (strToLower skill))).length : ℚ) /
          (us.length : ℚ) :=
      div_nonneg (Nat.cast_nonneg _) (Nat.cast_nonneg _)
    nlinarith

lemma simPath_bounds {c : ℚ} (hc : c ≤ 1) :
    0 ≤ max 0 ((c + 1) / 2) ∧ max 0 ((c + 1) / 2) ≤ 1 :=
  ⟨le_max_left _ _, max_le (by norm_num) (by linarith)⟩

lemma skills_match_bounds (sim : String → String → Option ℚ)
    (hsim : ∀ a b q, sim a b = some q → q ≤ 1)
    (us : List String) (jd : String) (rs : List String) :
    0 ≤ compute_skills_match sim us jd rs ∧
      compute_skills_match sim us jd rs ≤ 1 := by
  unfold compute_skills_match
  by_cases h1 : us.isEmpty
  · rw [if_pos h1]; norm_num
  · rw [if_neg h1]
    set jt := if rs.isEmpty then jd else jd ++ " " ++ " ".intercalate rs
    by_cases h2 : jt.trim = ""
    · rw [if_pos h2]; norm_num
    · rw [if_neg h2]
      rcases h3 : sim (" ".intercalate us) jt with _ | c
      · simpa [h3] using keyword_match_bounds us jt
      · simpa [h3] using simPath_bounds (hsim _ _ c h3)

lemma experience_match_bounds (uy : ℕ) (jm jM : Option ℕ) :
    0 ≤ compute_experience_match uy jm jM ∧
      compute_experience_match uy jm jM ≤ 1 := by
  unfold compute_experience_match
  by_cases h1 : jm = none ∧ jM = none
  · rw [if_pos h1]; norm_num
  · rw [if_neg h1]
    by_cases h2 : orNat jm 0 ≤ uy ∧ uy ≤ orNat jM 30
    · rw [if_pos h2]; norm_num
    · rw [if_neg h2]
      by_cases h3 : uy < orNat jm 0
      · rw [if_pos h3]
        refine ⟨le_trans (by norm_num) (le_max_left _ _),
          max_le (by norm_num) ?_⟩
        have h0 : (0:ℚ) ≤ ((orNat jm 0 - uy : ℕ) : ℚ) := Nat.cast_nonneg _
        nlinarith
      · rw [if_neg h3]
        dsimp only
        split_ifs <;> norm_num

lemma salary_match_bounds (um uM jm jM : Option ℕ) :
    0 ≤ compute_salary_match um uM jm jM ∧
      compute_salary_match um uM jm jM ≤ 1 := by
  unfold compute_salary_match
  by_cases h1 : (um = none ∧ uM = none) ∨ (jm = none ∧ jM = none)
  · rw [if_pos h1]; norm_num
  · rw [if_neg h1]
    set a := orNat um 0 with ha
    set b := orNat uM 500000 with hb
    set c := orNat jm 0 with hc
    set d := orNat jM 500000 with hd
    by_cases h2 : min b d < max a c
    · rw [if_pos h2]
      by_cases h3 : d < a
      · rw [if_pos h3]
        refine ⟨le_trans (by norm_num) (le_max_left _ _),
          max_le (by norm_num) ?_⟩
        have h0 : (0:ℚ) ≤ ((a - d : ℕ) : ℚ) / ((a : ℕ) : ℚ) :=
          div_nonneg (Nat.cast_nonneg _) (Nat.cast_nonneg _)
        linarith
      · rw [if_neg h3]; norm_num
    · rw [if_neg h2]
      refine ⟨le_min (by norm_num) ?_, min_le_left _ _⟩
      have hle : max a c ≤ min b d := Nat.le_of_not_lt h2
      have hab : a ≤ b :=
        le_trans (le_trans (le_max_left a c) hle) (min_le_left b d)
      have habz : ((a : ℕ) : ℤ) ≤ ((b : ℕ) : ℤ) := by exact_mod_cast hab
      have hur : (0:ℚ) <
          (((if (b : ℤ) - (a : ℤ) = 0 then 1 else (b : ℤ) - (a : ℤ)) : ℤ) : ℚ) := by
        split_ifs with hz
        · norm_num
        · have hpos : (0:ℤ) < (b : ℤ) - (a : ℤ) := by omega
          exact_mod_cast hpos
      have hdiv : (0:ℚ) ≤ ((min b d - max a c : ℕ) : ℚ) /
          (((if (b : ℤ) - (a : ℤ) = 0 then 1 else (b : ℤ) - (a : ℤ)) : ℤ) : ℚ) :=
        div_nonneg (Nat.cast_nonneg _) hur.le
      linarith

lemma location_match_bounds (pl : List String) (rp : Option String)
    (loc : Option String) (rem : Bool) :
    0 ≤ compute_location_match pl rp loc rem ∧
      compute_location_match pl rp loc rem ≤ 1 := by
  unfold compute_location_match
  have e1 : ¬(("any" : String) = "remote") := by decide
  have e2 : ¬(("any" : String) = "onsite" ∧ rem = true) := by
    rintro ⟨h, -⟩
    exact absurd h (by decide)
  rcases rp with _ | s
  · dsimp only
    rw [if_neg e1, if_neg e2]
    split_ifs <;> norm_num
  · dsimp only
    by_cases hs : s = ""
    · rw [if_pos hs, if_neg e1, if_neg e2]
      split_ifs <;> norm_num
    · rw [if_neg hs]
      by_cases hr : s = "remote"
      · rw [if_pos hr]
        split_ifs <;> norm_num
      · rw [if_neg hr]
        by_cases ho : s = "onsite" ∧ rem = true
        · rw [if_pos ho]; norm_num
        · rw [if_neg ho]
          split_ifs <;> norm_num

lemma title_match_bounds (sim : String → String → Option ℚ)
    (hsim : ∀ a b q, sim a b = some q → q ≤ 1)
    (tt : List String) (jt : String) :
    0 ≤ compute_title_match sim tt jt ∧ compute_title_match sim tt jt ≤ 1 := by
  unfold compute_title_match
  by_cases h1 : (tt.isEmpty || jt = "") = true
  · rw [if_pos h1]; norm_num
  · rw [if_neg h1]
    by_cases h2 : (tt.any fun t =>
        strContains (strToLower jt) (strToLower t) ||
          strContains (strToLower t) (strToLower jt)) = true
    · rw [if_pos h2]; norm_num
    · rw [if_neg h2]
      rcases h3 : sim (" ".intercalate tt) jt with _ | cv
      · simp [h3]; norm_num
      · simpa [h3] using simPath_bounds (hsim _ _ cv h3)

lemma recency_score_bounds (daysOld : String → Option ℤ)
    (pd : Option String) :
    0 ≤ compute_recency_score daysOld pd ∧
      compute_recency_score daysOld pd ≤ 1 := by
  unfold compute_recency_score
  rcases pd with _ | s
  · norm_num
  · dsimp only
    by_cases hs : s = ""
    · rw [if_pos hs]; norm_num
    · rw [if_neg hs]
      rcases hd : daysOld s with _ | d
      · norm_num
      · dsimp only
        split_ifs <;> norm_num

/-- C3: every one of the six component scorers returns a value in [0,1]
inclusive for every input — including inputs with all optional fields
absent or empty — and `compute_match_score` returns an integer
`total_score` in [0,100]; every function in the model is total, so no
exception is raised.  The cosine similarity of the embedding path is
assumed to be at most 1 (its mathematical range), and the aggregate bound
assumes the spec's weight invariant: non-negative fields summing to 1, as
the defaults do. -/
theorem C3_score_bounds (sim : String → String → Option ℚ)
    (hsim : ∀ a b q, sim a b = some q → q ≤ 1)
    (daysOld : String → Option ℤ) :
    (∀ us jd rs, 0 ≤ compute_skills_match sim us jd rs ∧
      compute_skills_match sim us jd rs ≤ 1) ∧
    (∀ uy jm jM, 0 ≤ compute_experience_match uy jm jM ∧
      compute_experience_match uy jm jM ≤ 1) ∧
    (∀ um uM jm jM, 0 ≤ compute_salary_match um uM jm jM ∧
      compute_salary_match um uM jm jM ≤ 1) ∧
    (∀ pl rp loc rem, 0 ≤ compute_location_match pl rp loc rem ∧
      compute_location_match pl rp loc rem ≤ 1) ∧
    (∀ tt jt, 0 ≤ compute_title_match sim tt jt ∧
      compute_title_match sim tt jt ≤ 1) ∧
    (∀ pd, 0 ≤ compute_recency_score daysOld pd ∧
      compute_recency_score daysOld pd ≤ 1) ∧
    (∀ (p : UserProfile) (j : Job) (w : MatchWeights),
      0 ≤ w.skills_semantic → 0 ≤ w.experience_level → 0 ≤ w.salary_fit →
      0 ≤ w.location_match → 0 ≤ w.title_similarity → 0 ≤ w.recency →
      weightsSum w = 1 →
      0 ≤ (compute_match_score sim daysOld p j w).total_score ∧
      (compute_match_score sim daysOld p j w).total_score ≤ 100) := by
  refine ⟨skills_match_bounds sim hsim, experience_match_bounds,
    salary_match_bounds, location_match_bounds,
    title_match_bounds sim hsim, recency_score_bounds daysOld, ?_⟩
  intro p j w hw1 hw2 hw3 hw4 hw5 hw6 hsum
  obtain ⟨a0, a1⟩ :=
    skills_match_bounds sim hsim p.skills j.description j.required_skills
  obtain ⟨b0, b1⟩ := experience_match_bounds (p.years_experience.getD 0)
    j.min_experience j.max_experience
  obtain ⟨c0, c1⟩ := salary_match_bounds p.salary_min p.salary_max
    j.salary_min j.salary_max
  obtain ⟨d0, d1⟩ := location_match_bounds p.preferred_locations
    p.remote_preference j.location j.is_remote
  obtain ⟨e0, e1⟩ := title_match_bounds sim hsim p.target_titles j.title
  obtain ⟨f0, f1⟩ := recency_score_bounds daysOld j.posted_date
  unfold weightsSum at hsum
  have m1 := mul_le_of_le_one_left hw1 a1
  have m2 := mul_le_of_le_one_left hw2 b1
  have m3 := mul_le_of_le_one_left hw3 c1
  have m4 := mul_le_of_le_one_left hw4 d1
  have m5 := mul_le_of_le_one_left hw5 e1
  have m6 := mul_le_of_le_one_left hw6 f1
  have n1 := mul_nonneg a0 hw1
  have n2 := mul_nonneg b0 hw2
  have n3 := mul_nonneg c0 hw3
  have n4 := mul_nonneg d0 hw4
  have n5 := mul_nonneg e0 hw5
  have n6 := mul_nonneg f0 hw6
  refine ⟨le_pyRound ?_, pyRound_le ?_⟩
  · push_cast
    linarith
  · push_cast
    linarith

/-- C3 witness: with the failed-embedding environment, an empty profile
and an empty job, the default weights give a total score inside
[0, 100]. -/
theorem C3_score_bounds_witness :
    0 ≤ (compute_match_score (fun _ _ => none) (fun _ => none) {} {}
      DEFAULT_WEIGHTS).total_score ∧
    (compute_match_score (fun _ _ => none) (fun _ => none) {} {}
      DEFAULT_WEIGHTS).total_score ≤ 100 :=
  (C3_score_bounds (fun _ _ => none) (fun a b q h => by cases h)
    (fun _ => none)).2.2.2.2.2.2 {} {} DEFAULT_WEIGHTS
    (by decide) (by decide) (by decide) (by decide) (by decide) (by decide)
    (by decide)

lemma scored_filterMap_eq (sim : String → String → Option ℚ)
    (daysOld : String → Option ℤ) (w : MatchWeights) (p : UserProfile)
    (min_score : ℤ) (jobs : List Job) :
    (jobs.filterMap fun job =>
      let scores := compute_match_score sim daysOld p job w
      if min_score ≤ scores.total_score then some (job, scores) else none) =
      ((jobs.map fun j => (j, compute_match_score sim daysOld p j w)).filter
        fun e => decide (min_score ≤ e.2.total_score)) := by
  induction jobs with
  | nil => rfl
  | cons a t ih =>
    by_cases h :
        min_score ≤ (compute_match_score sim daysOld p a w).total_score <;>
      simp [List.filterMap_cons, List.filter_cons, h, ih]

/-- C1: `rank_jobs` returns exactly the scored entries whose
`total_score` is at least `min_score` (a permutation of the filtered
scored list — those below the threshold are excluded), in descending
`total_score` order, and stably: for every score value `s`, the entries
scoring `s` appear in exactly the relative order the corresponding jobs
had in the input list. -/
theorem C1_rank_jobs (sim : String → String → Option ℚ)
    (daysOld : String → Option ℤ) (w : MatchWeights) (p : UserProfile)
    (jobs : List Job) (min_score : ℤ) :
    (rank_jobs sim daysOld w p jobs min_score).Perm
      ((jobs.map fun j => (j, compute_match_score sim daysOld p j w)).filter
        fun e => decide (min_score ≤ e.2.total_score)) ∧
    (rank_jobs sim daysOld w p jobs min_score).Pairwise
      (fun a b => b.2.total_score ≤ a.2.total_score) ∧
    (∀ s : ℤ,
      (rank_jobs sim daysOld w p jobs min_score).filter
          (fun e => decide (e.2.total_score = s)) =
        ((jobs.map fun j => (j, compute_match_score sim daysOld p j w)).filter
            (fun e => decide (min_score ≤ e.2.total_score))).filter
          (fun e => decide (e.2.total_score = s))) := by
  have htrans : ∀ a b c : Job × MatchScore,
      (fun a b : Job × MatchScore =>
        decide (b.2.total_score ≤ a.2.total_score)) a b = true →
      (fun a b : Job × MatchScore =>
        decide (b.2.total_score ≤ a.2.total_score)) b c = true →
      (fun a b : Job × MatchScore =>
        decide (b.2.total_score ≤ a.2.total_score)) a c = true := by
    intro a b c hab hbc
    simp only [decide_eq_true_eq] at *
    exact le_trans hbc hab
  have htotal : ∀ a b : Job × MatchScore,
      ((fun a b : Job × MatchScore =>
        decide (b.2.total_score ≤ a.2.total_score)) a b ||
       (fun a b : Job × MatchScore =>
        decide (b.2.total_score ≤ a.2.total_score)) b a) = true := by
    intro a b
    simp only [Bool.or_eq_true, decide_eq_true_eq]
    exact le_total _ _
  have h0 : rank_jobs sim daysOld w p jobs min_score =
      ((jobs.map fun j => (j, compute_match_score sim daysOld p j w)).filter
        fun e => decide (min_score ≤ e.2.total_score)).mergeSort
          (fun a b => decide (b.2.total_score ≤ a.2.total_score)) := by
    unfold rank_jobs
    rw [scored_filterMap_eq]
  rw [h0]
  set kept :=
    ((jobs.map fun j => (j, compute_match_score sim daysOld p j w)).filter
      fun e => decide (min_score ≤ e.2.total_score)) with hkept
  have hperm := List.mergeSort_perm kept
    (fun a b => decide (b.2.total_score ≤ a.2.total_score))
  refine ⟨hperm, ?_, ?_⟩
  · have hs := List.sorted_mergeSort htrans htotal kept
    exact hs.imp (fun h => of_decide_eq_true h)
  · intro s
    have hall : ∀ x ∈ kept.filter (fun e => decide (e.2.total_score = s)),
        (fun e : Job × MatchScore => decide (e.2.total_score = s)) x = true :=
      fun x hx => (List.mem_filter.mp hx).2
    have hcpair : (kept.filter
        (fun e => decide (e.2.total_score = s))).Pairwise
          (fun a b : Job × MatchScore =>
            decide (b.2.total_score ≤ a.2.total_score) = true) := by
      apply List.pairwise_of_forall_mem_list
      intro a ha b hb
      have h1 : a.2.total_score = s := of_decide_eq_true (hall a ha)
      have h2 : b.2.total_score = s := of_decide_eq_true (hall b hb)
      simp [h1, h2]
    have hstab := List.sublist_mergeSort htrans htotal hcpair
      (List.filter_sublist kept)
    have hfil := hstab.filter (fun e => decide (e.2.total_score = s))
    rw [List.filter_eq_self.mpr hall] at hfil
    have hpf := hperm.filter (fun e => decide (e.2.total_score = s))
    exact (hfil.eq_of_length (by rw [hpf.length_eq])).symm
